import Mathlib

/-!
Shallow embedding of the llm-router core (TypeScript) in Lean 4.

Numeric values are modelled with `ℚ` (the reference implementation computes with
IEEE doubles; every constant of the program is a decimal literal, and every
claim under verification only involves exact decimal arithmetic).  The three
transcendental operations used by the scoring function (`Math.pow(q, 0.3)`,
`Math.log(1 + 2n)/Math.log(3)`, `Math.sqrt`) have no exact rational
counterpart; they are abstracted as a parameter record `ScoreMath`, and every
theorem about the routing engine is proved for all instantiations of that
record.  On the code paths exercised by the concrete evaluations below
(priority preset COST) none of the three operations is reachable, so the
choice of instantiation does not affect those results.

Strings that carry response/prompt text are modelled as `List Char` (`Str`)
so that index-wise truncation is faithful; identifiers (model keys, provider
model names, method labels) stay `String`.

Wall-clock readings (`Date.now()` latencies, timestamps) and the random
request id are environmental inputs; they are threaded as parameters or
omitted from records where no claim depends on them.
-/

namespace LlmRouter

/-- Response/prompt text, character by character. -/
abbrev Str := List Char

/-- `PromptType` enum (src/lib/types). -/
inductive PromptType
  | code
  | summarize
  | qa
  | creative
  | mathReasoning
  | unknown
deriving DecidableEq, Repr, Inhabited

/-- `PriorityPreset` enum (src/lib/types). -/
inductive PriorityPreset
  | balanced
  | quality
  | cost
  | latency
deriving DecidableEq, Repr, Inhabited

/-- `Provider` enum (src/lib/types). -/
inductive Provider
  | openai
  | anthropic
  | google
  | huggingface
deriving DecidableEq, Repr, Inhabited

/-- Declaration order of the `PromptType` members, which is also the
insertion order of every keyed record over `PromptType` in the source. -/
def allPromptTypes : List PromptType :=
  [.code, .summarize, .qa, .creative, .mathReasoning, .unknown]

/-- A `{quality, cost, latency}` weight triple. -/
structure Weights where
  quality : ℚ
  cost : ℚ
  latency : ℚ
deriving DecidableEq, Repr, Inhabited

/-- `PRIORITY_WEIGHTS` from src/lib/routing/routing-rules.ts; this is the
table the routing engine actually loads via `getPriorityWeights()`. -/
def PRIORITY_WEIGHTS : PriorityPreset → Weights
  | .balanced => ⟨0.45, 0.30, 0.25⟩
  | .quality => ⟨0.70, 0.20, 0.10⟩
  | .cost => ⟨0.20, 0.70, 0.10⟩
  | .latency => ⟨0.20, 0.10, 0.70⟩

/-- `DEFAULT_PRIORITY_WEIGHTS` from src/lib/types/index.ts.  This constant is
never read by the routing engine; it is the table the specification document
reproduces. -/
def DEFAULT_PRIORITY_WEIGHTS : PriorityPreset → Weights
  | .balanced => ⟨0.45, 0.30, 0.25⟩
  | .quality => ⟨0.65, 0.15, 0.20⟩
  | .cost => ⟨0.30, 0.50, 0.20⟩
  | .latency => ⟨0.30, 0.20, 0.50⟩

/-- JavaScript `x || d` on a number `x`: `0` (and `NaN`) is falsy. -/
def jsOrQ (x d : ℚ) : ℚ := if x = 0 then d else x

/-- JavaScript `x || d` where `x` may be `undefined` (missing record entry). -/
def jsOptOrQ (x : Option ℚ) (d : ℚ) : ℚ :=
  match x with
  | none => d
  | some v => if v = 0 then d else v

/-- JavaScript `Math.round` for the non-negative arguments used here
(half-up rounding). -/
def jsRound (x : ℚ) : ℚ := (⌊x + 1/2⌋ : ℤ)

/-- JavaScript `Math.max(...l)` for the non-empty lists this program applies
it to (on `[]` the JS result would be `-Infinity`; that case is unreachable
because the candidate list is checked to be non-empty first). -/
def listMax : List ℚ → ℚ
  | [] => 0
  | x :: xs => xs.foldl max x

/-- JavaScript `Math.min(...l)`, same remarks as `listMax`. -/
def listMin : List ℚ → ℚ
  | [] => 0
  | x :: xs => xs.foldl min x

/-- JavaScript `hay.includes(needle)` (substring containment). -/
def strContainsSub (hay needle : Str) : Bool :=
  (List.range (hay.length + 1)).any (fun i => needle == (hay.drop i).take needle.length)

/-- One row of `MODEL_REGISTRY` (src/lib/models/model-registry.ts).
`key` is the property name under which the row is stored in the registry
object; `qualityPriorByType` keeps the declaration order of the TS record.
Capability booleans, rate limits and the `notes` string are omitted: no
routed code path reads them. -/
structure ModelEntry where
  key : String
  provider : Provider
  modelName : String
  contextWindowTokens : ℚ
  priceInputPerMillion : ℚ
  priceOutputPerMillion : ℚ
  latencyP50Seconds : ℚ
  qualityPriorByType : List (PromptType × ℚ)
  isAvailable : Option Bool
deriving DecidableEq, Repr, Inhabited

def claudeEntry : ModelEntry :=
  { key := "claude-3-7-sonnet-20250219"
    provider := .anthropic
    modelName := "claude-3-7-sonnet-20250219"
    contextWindowTokens := 200000
    priceInputPerMillion := 3.0
    priceOutputPerMillion := 15.0
    latencyP50Seconds := 1.34
    qualityPriorByType :=
      [(.code, 0.98), (.summarize, 0.95), (.qa, 0.96), (.creative, 0.98),
       (.mathReasoning, 0.95), (.unknown, 0.92)]
    isAvailable := some true }

def gpt5Entry : ModelEntry :=
  { key := "gpt-5"
    provider := .openai
    modelName := "gpt-5"
    contextWindowTokens := 400000
    priceInputPerMillion := 1.25
    priceOutputPerMillion := 10.0
    latencyP50Seconds := 7.52
    qualityPriorByType :=
      [(.code, 0.99), (.summarize, 0.96), (.qa, 0.99), (.creative, 0.97),
       (.mathReasoning, 0.99), (.unknown, 0.94)]
    isAvailable := some true }

def geminiFlashEntry : ModelEntry :=
  { key := "gemini-1.5-flash"
    provider := .google
    modelName := "gemini-1.5-flash"
    contextWindowTokens := 1050000
    priceInputPerMillion := 0.30
    priceOutputPerMillion := 2.50
    latencyP50Seconds := 0.45
    qualityPriorByType :=
      [(.code, 0.85), (.summarize, 0.88), (.qa, 0.86), (.creative, 0.84),
       (.mathReasoning, 0.82), (.unknown, 0.85)]
    isAvailable := some true }

def gpt4oMiniEntry : ModelEntry :=
  { key := "gpt-4o-mini"
    provider := .openai
    modelName := "gpt-4o-mini"
    contextWindowTokens := 128000
    priceInputPerMillion := 0.15
    priceOutputPerMillion := 0.60
    latencyP50Seconds := 0.46
    qualityPriorByType :=
      [(.code, 0.82), (.summarize, 0.80), (.qa, 0.81), (.creative, 0.79),
       (.mathReasoning, 0.75), (.unknown, 0.85)]
    isAvailable := some true }

def gptOss20bEntry : ModelEntry :=
  { key := "gpt-oss-20b"
    provider := .huggingface
    modelName := "openai/gpt-oss-20b:fireworks-ai"
    contextWindowTokens := 128000
    priceInputPerMillion := 0.0
    priceOutputPerMillion := 0.0
    latencyP50Seconds := 0.8
    qualityPriorByType :=
      [(.code, 0.78), (.summarize, 0.82), (.qa, 0.80), (.creative, 0.75),
       (.mathReasoning, 0.70), (.unknown, 0.85)]
    isAvailable := some true }

/-- `MODEL_REGISTRY` in its declaration (= iteration) order.  The mutable
registry object is modelled by passing a `List ModelEntry` value around;
mutations return the updated list. -/
def initRegistry : List ModelEntry :=
  [claudeEntry, gpt5Entry, geminiFlashEntry, gpt4oMiniEntry, gptOss20bEntry]

/-- `updateModelAvailability(modelName, isAvailable)`: if `modelName` is a
registry key, set that row's `isAvailable`; otherwise do nothing.  (The
localStorage / global-cache write in the source is persistence plumbing with
no reader in the routed code paths.) -/
def updateModelAvailability (reg : List ModelEntry) (modelName : String)
    (isAvailable : Bool) : List ModelEntry :=
  reg.map (fun e => if e.key = modelName then { e with isAvailable := some isAvailable } else e)

/-- `resetAllModelAvailability()`. -/
def resetAllModelAvailability (reg : List ModelEntry) : List ModelEntry :=
  reg.map (fun e => { e with isAvailable := some true })

/-- `RoutingEngine.markModelUnavailable(modelName)`. -/
def markModelUnavailable (reg : List ModelEntry) (modelName : String) : List ModelEntry :=
  updateModelAvailability reg modelName false

/-- The `isAvailable` stored under key `k` (`none` when `k` is not a key). -/
def availabilityOf (reg : List ModelEntry) (k : String) : Option Bool :=
  (reg.find? (fun e => e.key = k)).bind (fun e => e.isAvailable)

/-- The derived `ModelConfig` produced by `computeDerivedProperties`.
`qualityPriorPairs` is the fully populated `qualityPriors` record (missing
or zero-valued entries defaulted to 0.5 through JS `|| 0.5`). -/
structure ModelConfig where
  provider : Provider
  modelName : String
  contextWindow : ℚ
  inputCostPer1kTokens : ℚ
  outputCostPer1kTokens : ℚ
  latencyMs : ℚ
  capabilities : List PromptType
  qualityPriorPairs : List (PromptType × ℚ)
  throughputTps : ℚ
  isAvailable : Bool
deriving DecidableEq, Repr, Inhabited

/-- Lookup in a `PromptType`-keyed association list. -/
def priorLookup (pairs : List (PromptType × ℚ)) (t : PromptType) : Option ℚ :=
  (pairs.find? (fun p => p.1 = t)).map (fun p => p.2)

/-- `computeDerivedProperties` (src/lib/models/model-registry.ts). -/
def computeDerivedProperties (e : ModelEntry) : ModelConfig :=
  { provider := e.provider
    modelName := e.modelName
    contextWindow := e.contextWindowTokens
    inputCostPer1kTokens := e.priceInputPerMillion / 1000
    outputCostPer1kTokens := e.priceOutputPerMillion / 1000
    latencyMs := e.latencyP50Seconds * 1000
    capabilities := e.qualityPriorByType.map (fun p => p.1)
    qualityPriorPairs :=
      allPromptTypes.map (fun t => (t, jsOptOrQ (priorLookup e.qualityPriorByType t) 0.5))
    throughputTps := jsRound (1000 / e.latencyP50Seconds)
    isAvailable := e.isAvailable.getD true }

/-- `getModelByName` (registry-key lookup plus derivation). -/
def getModelByName (reg : List ModelEntry) (modelName : String) : Option ModelConfig :=
  (reg.find? (fun e => e.key = modelName)).map computeDerivedProperties

/-! ## Routing engine (src/lib/routing/routing-engine.ts) -/

/-- The three transcendental primitives used by `scoreModels`:
`pow03 q` stands for `Math.pow(q, 0.3)`, `logCost n` for
`Math.log(1 + n * 2) / Math.log(3)`, `sqrt x` for `Math.sqrt(x)`.
They are irrational on the inputs that occur, so the engine is embedded
parametrically in them; theorems quantify over the record. -/
structure ScoreMath where
  pow03 : ℚ → ℚ
  logCost : ℚ → ℚ
  sqrt : ℚ → ℚ

/-- A trivial instantiation, used for concrete evaluations on code paths
that never reach the three primitives (priority preset COST). -/
def zeroMath : ScoreMath := ⟨fun _ => 0, fun _ => 0, fun _ => 0⟩

/-- A candidate annotated with its score (`{ ...model, score }`). -/
structure Scored where
  cfg : ModelConfig
  score : ℚ
deriving DecidableEq, Repr, Inhabited

/-- `model.modelName.includes('claude') || model.modelName.includes('gpt-5')`. -/
def premiumName (s : String) : Bool :=
  strContainsSub s.toList "claude".toList || strContainsSub s.toList "gpt-5".toList

/-- `model.qualityPriors[promptType]` on a derived config (total record). -/
def qualityPriorVal (m : ModelConfig) (t : PromptType) : ℚ :=
  (priorLookup m.qualityPriorPairs t).getD 0.5

/-- The score computed for one `model` among `models` in
`RoutingEngine.scoreModels`, transcribed condition for condition. -/
def scoreOne (ops : ScoreMath) (weights : Weights) (models : List ModelConfig)
    (model : ModelConfig) (promptType : PromptType) (estimatedTokens : ℚ) : ℚ :=
  let qualityScore := jsOrQ (qualityPriorVal model promptType) 0.5
  let effectiveQualityScore :=
    if weights.quality > 0.5 then
      let amplified := ops.pow03 qualityScore
      if qualityScore > 0.9 then amplified + 0.1 else amplified
    else qualityScore
  let qualityContribution := effectiveQualityScore * weights.quality
  let costs := models.map (fun m => m.inputCostPer1kTokens)
  let maxCost := listMax costs
  let minCost := listMin costs
  let costScore :=
    if maxCost > 0 then
      if weights.cost > 0.4 then
        1 - model.inputCostPer1kTokens / maxCost
      else if model.inputCostPer1kTokens = 0 then
        (0.6 : ℚ)
      else
        let normalizedCost := (model.inputCostPer1kTokens - minCost) / (maxCost - minCost)
        let logScaled := 1 - ops.logCost normalizedCost
        if weights.quality > 0.6 then
          if premiumName model.modelName then max logScaled 0.6 else max logScaled 0.4
        else logScaled
    else (0.5 : ℚ)
  let costContribution := costScore * weights.cost
  let maxLatency := listMax (models.map (fun m => m.latencyMs))
  let latencyScoreBase := 1 - model.latencyMs / maxLatency
  let latencyScore :=
    if weights.quality > 0.6 ∧ premiumName model.modelName then
      ops.sqrt latencyScoreBase
    else latencyScoreBase
  let latencyContribution := latencyScore * weights.latency
  let contextBonus :=
    if estimatedTokens > 1000 then
      min 0.1 ((model.contextWindow - estimatedTokens) / 10000)
    else 0
  let maxThroughput := listMax (models.map (fun m => m.throughputTps))
  let throughputScore := model.throughputTps / maxThroughput * 0.05
  qualityContribution + costContribution + latencyContribution + contextBonus + throughputScore

/-- `RoutingEngine.scoreModels`: score every candidate, then sort by score
descending.  `Array.prototype.sort` is a stable sort and the comparator
`(a, b) => b.score - a.score` induces the total preorder "score ≥ score";
a stable sort for a total preorder is unique, so stable insertion sort is an
exact model. -/
def scoreModels (ops : ScoreMath) (models : List ModelConfig)
    (priorityPreset : PriorityPreset) (promptType : PromptType)
    (estimatedTokens : ℚ) : List Scored :=
  let weights := PRIORITY_WEIGHTS priorityPreset
  (models.map (fun m => Scored.mk m (scoreOne ops weights models m promptType estimatedTokens))).insertionSort
    (fun a b => b.score ≤ a.score)

/-- `RoutingEngine.getAvailableModels`: capability, context-window and
availability filter, in registry iteration order. -/
def getAvailableModels (reg : List ModelEntry) (promptType : PromptType)
    (estimatedTokens : ℚ) : List ModelConfig :=
  (reg.map computeDerivedProperties).filter
    (fun c => c.capabilities.contains promptType
      && decide (estimatedTokens ≤ c.contextWindow)
      && (c.isAvailable != false))

/-- `RoutingEngine.calculateConfidence`. -/
def calculateConfidence (selectedModel : Scored) (scoredModels : List Scored) : ℚ :=
  if scoredModels.length = 1 then 1
  else
    let selectedScore := jsOrQ selectedModel.score 0
    let secondBestScore := jsOrQ (((scoredModels.get? 1).map (fun s => s.score)).getD 0) 0
    if secondBestScore = 0 then 1
    else
      let scoreDifference := selectedScore - secondBestScore
      let maxScore := max selectedScore secondBestScore
      min 1 (0.5 + scoreDifference / maxScore * 0.5)

/-- `RoutingEngine.estimateCost` (30% output ratio assumption). -/
def estimateCost (model : ModelConfig) (estimatedTokens : ℚ) : ℚ :=
  estimatedTokens / 1000 * model.inputCostPer1kTokens
    + estimatedTokens * 0.3 / 1000 * model.outputCostPer1kTokens

/-- One element of `RoutingDecision.alternatives` (the human-readable
`reason` string is presentation-only and not modelled). -/
structure AlternativeRec where
  modelName : String
  score : ℚ
  provider : Provider
  qualityScore : ℚ
  costPer1kTokens : ℚ
  latencyMs : ℚ
deriving DecidableEq, Repr, Inhabited

/-- `RoutingDecision` (src/lib/types).  The `reasoning` string is
presentation-only and not modelled. -/
structure RoutingDecision where
  selectedModel : String
  provider : Provider
  promptType : PromptType
  fallbackModel : Option String
  confidence : ℚ
  estimatedCost : ℚ
  estimatedLatency : ℚ
  score : ℚ
  priorityWeights : Weights
  alternatives : List AlternativeRec
deriving DecidableEq, Repr, Inhabited

/-- `RoutingRequest` (fields not read by `routeRequest` omitted). -/
structure RoutingRequest where
  prompt : Str
  promptType : Option PromptType
  priorityPreset : PriorityPreset
deriving DecidableEq, Repr, Inhabited

/-- `Math.ceil((request.prompt?.length || 0) / 4)`. -/
def estimatedTokensOf (promptLen : ℕ) : ℚ := (((promptLen + 3) / 4 : ℕ) : ℚ)

/-- `RoutingEngine.routeRequest`.  Errors are modelled as `Except.error`
with the thrown message.  The metrics counters the method increments are
write-only telemetry and not modelled.  The second `error` branch is
unreachable (the candidate list was checked non-empty); in JS it would be a
`TypeError` on `undefined`. -/
def routeRequest (ops : ScoreMath) (reg : List ModelEntry)
    (request : RoutingRequest) : Except String RoutingDecision :=
  match request.promptType with
  | none => .error "Prompt type is required for routing"
  | some promptType =>
    let estimatedTokens := estimatedTokensOf request.prompt.length
    let availableModels := getAvailableModels reg promptType estimatedTokens
    if availableModels.isEmpty then
      .error "No available models for prompt type"
    else
      match scoreModels ops availableModels request.priorityPreset promptType estimatedTokens with
      | [] => .error "unreachable: scored list empty"
      | selectedModel :: restScored =>
        let scoredModels := selectedModel :: restScored
        let fallbackModel := scoredModels.find?
          (fun m => (m.cfg.modelName != selectedModel.cfg.modelName)
            && (m.cfg.isAvailable != false))
        let smartAlternatives :=
          ((restScored.filter (fun m => m.cfg.isAvailable != false)).take 4).map
            (fun m => AlternativeRec.mk m.cfg.modelName m.score m.cfg.provider
              (jsOrQ (qualityPriorVal m.cfg promptType) 0)
              m.cfg.inputCostPer1kTokens m.cfg.latencyMs)
        .ok
          { selectedModel := selectedModel.cfg.modelName
            provider := selectedModel.cfg.provider
            promptType := promptType
            fallbackModel := fallbackModel.map (fun m => m.cfg.modelName)
            confidence := calculateConfidence selectedModel scoredModels
            estimatedCost := estimateCost selectedModel.cfg estimatedTokens
            estimatedLatency := selectedModel.cfg.latencyMs
            score := jsOrQ selectedModel.score 0
            priorityWeights := PRIORITY_WEIGHTS request.priorityPreset
            alternatives := smartAlternatives }

/-- The candidate list of `RoutingEngine.calculateCostSavings`:
`Object.values(MODEL_REGISTRY).map(baseConfig => getModelByName(baseConfig.modelName))
.filter(model => model && model.capabilities.includes(promptType))` — each
row is re-resolved through the registry-key lookup `getModelByName` applied
to its wire-level `modelName`, and unresolved rows (`undefined`, which is
what `gpt-oss-20b` yields, its key differing from its wire name) are
dropped by the truthiness filter. -/
def costSavingsCandidates (reg : List ModelEntry) (promptType : PromptType) :
    List ModelConfig :=
  reg.filterMap (fun baseConfig =>
    match getModelByName reg baseConfig.modelName with
    | some model =>
      if model.capabilities.contains promptType then some model else none
    | none => none)

/-- `RoutingEngine.calculateCostSavings`: most expensive candidate (after
wire-name re-resolution), its per-1k-token input price over a notional
1000 tokens, floored at 0. -/
def calculateCostSavings (reg : List ModelEntry) (actualCost : ℚ)
    (promptType : PromptType) : ℚ :=
  let sorted := (costSavingsCandidates reg promptType).insertionSort
    (fun a b => b.inputCostPer1kTokens ≤ a.inputCostPer1kTokens)
  match sorted.head? with
  | none => 0
  | some mostExpensiveModel =>
    let maxCost := (1000 / 1000 : ℚ) * mostExpensiveModel.inputCostPer1kTokens
    max 0 (maxCost - actualCost)

/-! ## Heuristic classifier (src/lib/classification/heuristic-classifier.ts) -/

/-- The `keywords` lists of `PROMPT_TYPE_MAPPING` (src/lib/types/index.ts). -/
def promptTypeKeywords : PromptType → List String
  | .code => ["write", "code", "function", "class", "algorithm", "program", "script"]
  | .summarize => ["summarize", "summary", "brief", "overview", "tl;dr", "key points"]
  | .qa => ["what is", "how to", "explain", "why", "when", "where", "question",
            "hello", "hi", "how are you", "how do you do", "greeting", "conversation"]
  | .creative => ["write", "story", "poem", "creative", "imagine", "describe", "narrative"]
  | .mathReasoning => ["calculate", "solve", "equation", "mathematical", "math", "algebra",
                       "geometry", "calculus", "statistics", "probability", "proof", "theorem",
                       "formula", "cos", "sin", "tan", "log", "ln", "derivative", "integral",
                       "matrix", "vector", "sqrt", "exp", "pi", "=", "+", "-", "*", "/", "^",
                       "x", "y", "z"]
  | .unknown => []

/-- The `estimatedOutputTokens` column of `PROMPT_TYPE_MAPPING`. -/
def promptTypeEstimatedOutputTokens : PromptType → ℚ
  | .code => 500
  | .summarize => 300
  | .qa => 200
  | .creative => 400
  | .mathReasoning => 600
  | .unknown => 300

/-- JavaScript `toLowerCase()` (modelled at the character level; every
keyword in the tables is already lower-case ASCII). -/
def toLowerStr (s : Str) : Str := s.map Char.toLower

/-- The keywords of `kws` occurring as substrings of the lower-cased prompt. -/
def matchedKeywordsFor (promptLower : Str) (kws : List String) : List String :=
  kws.filter (fun keyword => strContainsSub promptLower (toLowerStr keyword.toList))

/-- `HeuristicClassifier.calculateKeywordScore`. -/
def calculateKeywordScore (matchedKeywords allKeywords : List String) : ℚ :=
  if allKeywords.length = 0 then 0
  else
    let matchRatio : ℚ := (matchedKeywords.length : ℚ) / (allKeywords.length : ℚ)
    let exactMatches := (matchedKeywords.filter (fun k => allKeywords.contains k)).length
    let exactMatchBonus := (exactMatches : ℚ) * 0.1
    min 1 (matchRatio + exactMatchBonus)

/-- The per-category raw score of the `scores` record: 0 for `UNKNOWN`
(skipped by the scoring loop), keyword score otherwise. -/
def rawScore (prompt : Str) (t : PromptType) : ℚ :=
  if t = .unknown then 0
  else
    calculateKeywordScore (matchedKeywordsFor (toLowerStr prompt) (promptTypeKeywords t))
      (promptTypeKeywords t)

/-- `HeuristicClassifier.findBestMatch`: fold over the record entries in
declaration order, skipping `UNKNOWN`, keeping the first strict maximum. -/
def findBestMatch (prompt : Str) : PromptType × ℚ :=
  allPromptTypes.foldl
    (fun bestMatch t =>
      if t = .unknown then bestMatch
      else if rawScore prompt t > bestMatch.2 then (t, rawScore prompt t) else bestMatch)
    (.unknown, 0)

/-- The runner-up score: `Math.max(...otherScores, 0)` over the non-`UNKNOWN`
categories other than the best match. -/
def maxOtherScore (prompt : Str) (best : PromptType) : ℚ :=
  ((allPromptTypes.filter (fun t => t ≠ best ∧ t ≠ .unknown)).map (rawScore prompt)).foldl max 0

/-- `HeuristicClassifier.calculateConfidence`. -/
def heuristicConfidence (prompt : Str) (bestMatch : PromptType × ℚ) : ℚ :=
  if bestMatch.2 = 0 then 0.1
  else
    let scoreDifference := bestMatch.2 - maxOtherScore prompt bestMatch.1
    let c₀ := bestMatch.2
    let c₁ := if scoreDifference > 0.3 then c₀ + 0.2 else c₀
    let c₂ := if scoreDifference > 0.5 then c₁ + 0.1 else c₁
    min 0.9 c₂

/-- Result of the heuristic classifier (the metadata strings are
presentation-only and not modelled). -/
structure HeuristicResult where
  promptType : PromptType
  confidence : ℚ
deriving DecidableEq, Repr, Inhabited

/-- `HeuristicClassifier.classify`. -/
def heuristicClassify (prompt : Str) : HeuristicResult :=
  let bestMatch := findBestMatch prompt
  { promptType := bestMatch.1, confidence := heuristicConfidence prompt bestMatch }

/-! ## Hybrid classifier (src/lib/classification/hybrid-classifier.ts) -/

/-- Result of the model classifier as consumed by `combineResults`. -/
structure ModelResult where
  promptType : PromptType
  confidence : ℚ
deriving DecidableEq, Repr, Inhabited

/-- Result of `HybridClassifier.classify`; `finalMethod` is the
`metadata.finalMethod` string. -/
structure HybridResult where
  promptType : PromptType
  confidence : ℚ
  method : String
  finalMethod : String
deriving DecidableEq, Repr, Inhabited

/-- `HybridClassifier.combineResults`, returning
`(promptType, confidence, method)`. -/
def combineResults (heuristicResult : HeuristicResult) (modelResult : ModelResult) :
    PromptType × ℚ × String :=
  if heuristicResult.promptType = modelResult.promptType then
    let maxConfidence := max heuristicResult.confidence modelResult.confidence
    let method := if maxConfidence = heuristicResult.confidence then "heuristic" else "model"
    (heuristicResult.promptType, maxConfidence, method)
  else
    let confidenceDifference := modelResult.confidence - heuristicResult.confidence
    if confidenceDifference > 0.2 then
      (modelResult.promptType, modelResult.confidence, "model")
    else if confidenceDifference > 0 then
      (modelResult.promptType, modelResult.confidence, "model")
    else
      (heuristicResult.promptType, heuristicResult.confidence, "heuristic")

/-- `HybridClassifier.classify`.  The outcome of the (network-bound,
lazily invoked) model classifier is passed in as `modelOutcome`; the
`try ... catch` around the body is the `Except.error` case.  The environment
read `getConfidenceThreshold` only feeds a reasoning string and is modelled
as total. -/
def hybridClassify (prompt : Str) (modelOutcome : Except String ModelResult) : HybridResult :=
  let heuristicResult := heuristicClassify prompt
  if heuristicResult.confidence ≥ 0.7 then
    { promptType := heuristicResult.promptType
      confidence := heuristicResult.confidence
      method := "heuristic"
      finalMethod := "heuristic_only" }
  else
    match modelOutcome with
    | .ok modelResult =>
      let finalResult := combineResults heuristicResult modelResult
      { promptType := finalResult.1
        confidence := finalResult.2.1
        method := finalResult.2.2
        finalMethod := finalResult.2.2 }
    | .error _ =>
      { promptType := heuristicResult.promptType
        confidence := max 0.1 (heuristicResult.confidence * 0.5)
        method := "heuristic"
        finalMethod := "heuristic_fallback" }

/-! ## Router service (src/lib/routing/router-service.ts) -/

/-- The generation options the service passes to a backend client. -/
structure GenOptions where
  maxTokens : ℚ
  temperature : ℚ
  timeoutMs : ℚ
deriving DecidableEq, Repr, Inhabited

/-- `RequestLog` (src/lib/types).  `id` (random) and `timestamp`
(wall clock) are environmental and omitted. -/
structure RequestLog where
  prompt : Str
  promptType : PromptType
  selectedModel : String
  provider : Provider
  costUsd : ℚ
  latencyMs : ℚ
  qualityScore : Option ℚ
  classificationMethod : String
  classificationConfidence : ℚ
  priorityPreset : PriorityPreset
  userId : Option String
  sessionId : Option String
  error : Option String
deriving DecidableEq, Repr, Inhabited

/-- `RouterService.maxLogs`. -/
def maxLogs : ℕ := 1000

/-- `RouterService.logRequest`: push, then keep only the last `maxLogs`
entries (`slice(-maxLogs)`). -/
def logRequest (requestLogs : List RequestLog) (log : RequestLog) : List RequestLog :=
  let pushed := requestLogs ++ [log]
  if pushed.length > maxLogs then pushed.drop (pushed.length - maxLogs) else pushed

/-- The mutable state owned by the service: the shared model registry and
the analytics log buffer. -/
structure RouterState where
  registry : List ModelEntry
  requestLogs : List RequestLog
deriving DecidableEq, Repr, Inhabited

/-- `RouterResponse` (`timestamp` omitted: wall clock). -/
structure RouterResponse where
  response : Str
  modelUsed : String
  promptType : PromptType
  classificationConfidence : ℚ
  routingDecision : RoutingDecision
  actualCost : ℚ
  actualLatency : ℚ
  costSavings : ℚ
  wasTruncated : Bool
deriving DecidableEq, Repr, Inhabited

/-- `RouterService.getTemperatureForPromptType`. -/
def getTemperatureForPromptType : PromptType → ℚ
  | .code => 0.1
  | .summarize => 0.3
  | .qa => 0.2
  | .creative => 0.8
  | .mathReasoning => 0.1
  | .unknown => 0.5

/-- `RouterService.getMaxOutputTokens`.  The `limits` record is total over
`PromptType`, so the `?? Math.max(base * 2, 1500)` default (which would read
`promptTypeEstimatedOutputTokens`) is unreachable. -/
def getMaxOutputTokens : PromptType → ℚ
  | .qa => 2000
  | .creative => 2500
  | .mathReasoning => 3000
  | .code => 2000
  | .summarize => 1500
  | .unknown => 1500

/-- `RouterService.calculateActualCost` (4-chars-per-token estimate over the
per-million prices; unknown registry key gives 0). -/
def calculateActualCost (reg : List ModelEntry) (modelName : String)
    (inputChars outputChars : ℕ) : ℚ :=
  match reg.find? (fun e => e.key = modelName) with
  | none => 0
  | some modelConfig =>
    let inputTokens := ((inputChars + 3) / 4 : ℕ)
    let outputTokens := ((outputChars + 3) / 4 : ℕ)
    (inputTokens : ℚ) / 1000000 * modelConfig.priceInputPerMillion
      + (outputTokens : ℚ) / 1000000 * modelConfig.priceOutputPerMillion

/-- The sentence-aware truncation block, inlined twice (verbatim) in
`routePrompt` and `handleRoutingError`.  `lastIndexOfLe cs c i` is JavaScript
`cs.lastIndexOf(c, i)`: the largest index `≤ i` holding `c`, else `-1`. -/
def lastIndexOfLe (cs : Str) (c : Char) (fromIndex : ℕ) : Int :=
  match ((List.range (min (fromIndex + 1) cs.length)).filter
      (fun i => cs[i]? == some c)).getLast? with
  | some i => (i : Int)
  | none => -1

/-- The truncation applied to a response text (3000-character budget,
sentence/paragraph break search, 80% threshold). -/
def truncateResponse (text : Str) : Str × Bool :=
  let maxResponseLength : ℕ := 3000
  if text.length > maxResponseLength then
    let truncationPoint := lastIndexOfLe text '.' maxResponseLength
    let fallbackPoint := lastIndexOfLe text '\n' maxResponseLength
    let cutPoint := if truncationPoint > fallbackPoint then truncationPoint else fallbackPoint
    if (cutPoint : ℚ) > (maxResponseLength : ℚ) * 0.8 then
      (text.take (cutPoint.toNat + 1) ++ "...".toList, true)
    else (text, false)
  else (text, false)

/-- A backend invocation observed during one `routePrompt` call:
the model name handed to `modelClientFactory.getClient` and the
`GenerationOptions` of the `generateResponse` call. -/
abbrev BackendCall := String × GenOptions

/-- A backend client pool: for a model name and options, either the reply
text or a thrown error message.  This folds together client resolution and
`generateResponse` (both failure modes land in the same `catch`). -/
abbrev Backend := String → GenOptions → Except String Str

/-- `RouterService.handleRoutingError`: one static-fallback attempt on
`gpt-4o-mini` with `temperature 0.7`, `timeoutMs 30000` and the
category-specific `maxTokens`; on success log the outcome with the assumed
cost `0.00015`; if the fallback also fails, re-raise
`Routing failed: <original message>`.  The final failure path logs nothing. -/
def handleRoutingError (backend : Backend) (prompt : Str) (priorityPreset : PriorityPreset)
    (errorMessage : String) (elapsed : ℚ) (classifiedPromptType : PromptType)
    (classifiedConfidence : ℚ) (userId sessionId : Option String)
    (st : RouterState) (calls : List BackendCall) :
    Except String RouterResponse × RouterState × List BackendCall :=
  let fallbackOptions : GenOptions := ⟨getMaxOutputTokens classifiedPromptType, 0.7, 30000⟩
  match backend "gpt-4o-mini" fallbackOptions with
  | .ok content =>
    let entry : RequestLog :=
      { prompt := prompt
        promptType := classifiedPromptType
        selectedModel := "gpt-4o-mini"
        provider := .openai
        costUsd := 0.00015
        latencyMs := elapsed
        qualityScore := some 0.5
        classificationMethod := "fallback"
        classificationConfidence := jsOrQ classifiedConfidence 0.5
        priorityPreset := priorityPreset
        userId := userId
        sessionId := sessionId
        error := some errorMessage }
    let st' : RouterState := { st with requestLogs := logRequest st.requestLogs entry }
    let truncated := truncateResponse content
    (.ok
      { response := truncated.1
        modelUsed := "gpt-4o-mini (fallback)"
        promptType := classifiedPromptType
        classificationConfidence := jsOrQ classifiedConfidence 0.5
        routingDecision :=
          { selectedModel := "gpt-4o-mini"
            provider := .openai
            promptType := classifiedPromptType
            fallbackModel := none
            confidence := 0.5
            estimatedCost := 0.00015
            estimatedLatency := elapsed
            score := 0
            priorityWeights := ⟨0.3, 0.5, 0.2⟩
            alternatives := [] }
        actualCost := 0.00015
        actualLatency := elapsed
        costSavings := 0
        wasTruncated := truncated.2 },
     st', calls ++ [("gpt-4o-mini", fallbackOptions)])
  | .error _ =>
    (.error ("Routing failed: "
        ++ (if errorMessage = "" then "Unknown routing error" else errorMessage)),
     st, calls ++ [("gpt-4o-mini", fallbackOptions)])

/-- The outcome of the hybrid classification step as consumed by
`routePrompt`. -/
structure ClassifyOutcome where
  promptType : PromptType
  confidence : ℚ
  method : String
deriving DecidableEq, Repr, Inhabited

/-- `RouterService.routePrompt`.  `classifyOutcome` is the result of the
hybrid-classifier step (its `Except.error` case is a thrown classification
error, which lands in the outer `catch` with the initial
`(UNKNOWN, 0.5)`); `cfgTimeout` is `env.REQUEST_TIMEOUT_MS` (default 30000);
`elapsed` stands for the wall-clock `Date.now()` difference; the third
component of the result is the list of backend invocations made. -/
def routePrompt (ops : ScoreMath) (cfgTimeout : ℚ)
    (classifyOutcome : Except String ClassifyOutcome) (backend : Backend) (elapsed : ℚ)
    (st : RouterState) (prompt : Str) (priorityPreset : PriorityPreset)
    (userId sessionId : Option String) :
    Except String RouterResponse × RouterState × List BackendCall :=
  match classifyOutcome with
  | .error e =>
    handleRoutingError backend prompt priorityPreset e elapsed .unknown 0.5 userId sessionId st []
  | .ok classificationResult =>
    let promptType := classificationResult.promptType
    let classificationConfidence := classificationResult.confidence
    match routeRequest ops st.registry ⟨prompt, some promptType, priorityPreset⟩ with
    | .error e =>
      handleRoutingError backend prompt priorityPreset e elapsed promptType
        classificationConfidence userId sessionId st []
    | .ok routingDecision =>
      let options : GenOptions :=
        ⟨getMaxOutputTokens promptType, getTemperatureForPromptType promptType, cfgTimeout⟩
      match backend routingDecision.selectedModel options with
      | .error e =>
        let st₁ : RouterState :=
          { st with registry := markModelUnavailable st.registry routingDecision.selectedModel }
        handleRoutingError backend prompt priorityPreset e elapsed promptType
          classificationConfidence userId sessionId st₁ [(routingDecision.selectedModel, options)]
      | .ok content =>
        let actualCost :=
          calculateActualCost st.registry routingDecision.selectedModel
            prompt.length content.length
        let costSavings := calculateCostSavings st.registry actualCost promptType
        let entry : RequestLog :=
          { prompt := prompt
            promptType := promptType
            selectedModel := routingDecision.selectedModel
            provider := routingDecision.provider
            costUsd := actualCost
            latencyMs := elapsed
            qualityScore := some routingDecision.confidence
            classificationMethod := classificationResult.method
            classificationConfidence := classificationConfidence
            priorityPreset := priorityPreset
            userId := userId
            sessionId := sessionId
            error := none }
        let st' : RouterState := { st with requestLogs := logRequest st.requestLogs entry }
        let baseResponse := if content.isEmpty then "No response generated".toList else content
        let truncated := truncateResponse baseResponse
        (.ok
          { response := truncated.1
            modelUsed := routingDecision.selectedModel
            promptType := promptType
            classificationConfidence := classificationConfidence
            routingDecision := routingDecision
            actualCost := actualCost
            actualLatency := elapsed
            costSavings := costSavings
            wasTruncated := truncated.2 },
         st', [(routingDecision.selectedModel, options)])

/-! ## Specification-shaped definitions and concrete fixtures -/

/-- The truncation rule as the specification words it: with `L = 3000`,
a text of length at most `L` is unchanged; otherwise
`cut = max(lastIndexOf('.', L), lastIndexOf('\n', L))`, and if
`cut > 0.8 · L` the result is the prefix up to and including `cut` followed
by the ellipsis marker, else the full text unchanged. -/
def truncateClaim (text : Str) : Str × Bool :=
  let L : ℕ := 3000
  if text.length ≤ L then (text, false)
  else
    let cut : Int := max (lastIndexOfLe text '.' L) (lastIndexOfLe text '\n' L)
    if (cut : ℚ) > 0.8 * (L : ℚ) then (text.take (cut.toNat + 1) ++ "...".toList, true)
    else (text, false)

/-- A short request under preset COST (on which `ScoreMath` is dead code). -/
def reqCostHi : RoutingRequest := ⟨"hi".toList, some .summarize, .cost⟩

/-- The decision produced for `reqCostHi` on the pristine registry. -/
def decCostHi : RoutingDecision :=
  (routeRequest zeroMath initRegistry reqCostHi).toOption.getD default

/-- The registry after marking the key `gpt-5` unavailable. -/
def regNoGpt5 : List ModelEntry := List.foldl markModelUnavailable initRegistry ["gpt-5"]

/-- The decision produced for `reqCostHi` after `gpt-5` was marked. -/
def decNoGpt5 : RoutingDecision :=
  (routeRequest zeroMath regNoGpt5 reqCostHi).toOption.getD default

/-- A backend pool on which every invocation fails. -/
def failAllBackend : Backend := fun _ _ => .error "primary down"

/-- A backend pool on which only `gpt-4o-mini` answers. -/
def fbOnlyBackend : Backend := fun name _ =>
  if name = "gpt-4o-mini" then .ok "All good.".toList else .error "primary down"

/-- A backend pool on which exactly the gpt-oss-20b wire name fails. -/
def ossFailBackend : Backend := fun name _ =>
  if name = "openai/gpt-oss-20b:fireworks-ai" then .error "oss down" else .ok "All good.".toList

/-- A fixed classification outcome used by concrete service runs. -/
def classifySumm : ClassifyOutcome := ⟨.summarize, 0.8, "heuristic"⟩

/-- A minimal distinct log entry, for exercising the ring buffer. -/
def witnessLog (i : ℕ) : RequestLog :=
  { prompt := []
    promptType := .unknown
    selectedModel := toString i
    provider := .openai
    costUsd := 0
    latencyMs := 0
    qualityScore := none
    classificationMethod := ""
    classificationConfidence := 0
    priorityPreset := .balanced
    userId := none
    sessionId := none
    error := none }

/-- A 3500-character text whose only sentence break sits at index 2999. -/
def c7text : Str := List.replicate 2999 'a' ++ ['.'] ++ List.replicate 500 'b'

/-! ## General lemmas about the embedding -/

theorem logRequest_eq_drop (logs : List RequestLog) (e : RequestLog) :
    logRequest logs e = (logs ++ [e]).drop (logs.length + 1 - maxLogs) := by
  unfold logRequest
  simp only [List.length_append, List.length_singleton]
  by_cases hlen : logs.length + 1 > maxLogs
  · rw [if_pos hlen]
  · rw [if_neg hlen]
    have : logs.length + 1 - maxLogs = 0 := by omega
    rw [this, List.drop_zero]

theorem logRequest_length_le (logs : List RequestLog) (e : RequestLog) :
    (logRequest logs e).length ≤ maxLogs := by
  rw [logRequest_eq_drop logs e]
  simp only [List.length_drop, List.length_append, List.length_singleton]
  have hM : maxLogs = 1000 := rfl
  omega

theorem foldl_logRequest_eq_drop (es : List RequestLog) :
    es.foldl logRequest [] = es.drop (es.length - maxLogs) := by
  induction es using List.reverseRecOn with
  | nil => simp
  | append_singleton es e ih =>
    rw [List.foldl_append, List.foldl_cons, List.foldl_nil, ih,
      logRequest_eq_drop _ _, List.length_drop]
    have hR : (es ++ [e]).length - maxLogs = es.length + 1 - maxLogs := by
      rw [List.length_append, List.length_singleton]
    rw [hR]
    have hM : maxLogs = 1000 := rfl
    by_cases hcap : es.length < maxLogs
    · have h1 : es.length - (es.length - maxLogs) + 1 - maxLogs = 0 := by omega
      have h0 : es.length - maxLogs = 0 := by omega
      have h2 : es.length + 1 - maxLogs = 0 := by omega
      rw [h1, h0, h2, List.drop_zero, List.drop_zero, List.drop_zero]
    · have h1 : es.length - (es.length - maxLogs) + 1 - maxLogs = 1 := by omega
      have h2 : es.length + 1 - maxLogs = (es.length - maxLogs) + 1 := by omega
      rw [h1, h2]
      rw [List.drop_append_of_le_length (by rw [List.length_drop]; omega),
        List.drop_drop,
        List.drop_append_of_le_length (by omega)]

theorem truncateResponse_eq_truncateClaim (text : Str) :
    truncateResponse text = truncateClaim text := by
  unfold truncateResponse truncateClaim
  dsimp only
  by_cases h : text.length ≤ 3000
  · rw [if_neg (by omega), if_pos h]
  · rw [if_pos (by omega), if_neg h]
    have hmax :
        (if lastIndexOfLe text '.' 3000 > lastIndexOfLe text '\n' 3000 then
            lastIndexOfLe text '.' 3000
          else lastIndexOfLe text '\n' 3000) =
        max (lastIndexOfLe text '.' 3000) (lastIndexOfLe text '\n' 3000) := by
      rcases le_or_lt (lastIndexOfLe text '.' 3000) (lastIndexOfLe text '\n' 3000) with hc | hc
      · rw [if_neg (by omega), max_eq_right hc]
      · rw [if_pos hc, max_eq_left (le_of_lt hc)]
    rw [hmax]
    exact if_congr (by constructor <;> intro hx <;> linarith) rfl rfl

/-- Membership through `scoreModels`: every scored entry wraps one of the
input candidates. -/
theorem scoreModels_cfg_mem {ops : ScoreMath} {models : List ModelConfig}
    {preset : PriorityPreset} {pt : PromptType} {tok : ℚ} {s : Scored}
    (h : s ∈ scoreModels ops models preset pt tok) : s.cfg ∈ models := by
  unfold scoreModels at h
  have h₂ := (List.perm_insertionSort _ _).mem_iff.1 h
  obtain ⟨m, hm, hms⟩ := List.mem_map.1 h₂
  rw [← hms]
  exact hm

/-- Membership through the availability filter: every candidate is the
derivation of a registry row that passes the capability, context and
availability checks. -/
theorem getAvailableModels_sound {reg : List ModelEntry} {pt : PromptType} {tok : ℚ}
    {c : ModelConfig} (h : c ∈ getAvailableModels reg pt tok) :
    ∃ e ∈ reg, c = computeDerivedProperties e ∧ c.isAvailable = true := by
  unfold getAvailableModels at h
  have hmem := List.mem_of_mem_filter h
  have hfil := List.of_mem_filter h
  obtain ⟨e, he, hec⟩ := List.mem_map.1 hmem
  refine ⟨e, he, hec.symm, ?_⟩
  simp only [Bool.and_eq_true, bne_iff_ne, ne_eq] at hfil
  cases hb : c.isAvailable with
  | true => rfl
  | false => exact absurd hb hfil.2

/-- A successful routing decision names the provider `modelName` of a
registry row whose `isAvailable` was not `false` at filtering time. -/
theorem routeRequest_ok_selected {ops : ScoreMath} {reg : List ModelEntry}
    {req : RoutingRequest} {d : RoutingDecision}
    (h : routeRequest ops reg req = .ok d) :
    ∃ e ∈ reg, (e.isAvailable.getD true) = true ∧ d.selectedModel = e.modelName := by
  unfold routeRequest at h
  split at h
  · exact absurd h (by simp)
  next pt hpt =>
    dsimp only at h
    split at h
    · exact absurd h (by simp)
    next hempty =>
      split at h
      · exact absurd h (by simp)
      next sel rest hscore =>
        have hd : d.selectedModel = sel.cfg.modelName := by
          cases h; rfl
        have hsel : sel ∈ scoreModels ops
            (getAvailableModels reg pt (estimatedTokensOf req.prompt.length))
            req.priorityPreset pt (estimatedTokensOf req.prompt.length) := by
          rw [hscore]; exact List.mem_cons_self _ _
        obtain ⟨e, he, hce, hav⟩ := getAvailableModels_sound (scoreModels_cfg_mem hsel)
        refine ⟨e, he, ?_, ?_⟩
        · have hisav : sel.cfg.isAvailable = e.isAvailable.getD true := by
            rw [hce]; rfl
          rw [← hisav]; exact hav
        · rw [hd, hce]; rfl

/-- `updateModelAvailability` with a name that is no registry key is the
identity. -/
theorem updateModelAvailability_frame (reg : List ModelEntry) (name : String) (b : Bool)
    (h : ∀ e ∈ reg, e.key ≠ name) : updateModelAvailability reg name b = reg := by
  unfold updateModelAvailability
  induction reg with
  | nil => rfl
  | cons e rest ih =>
    rw [List.map_cons, if_neg (h e (List.mem_cons_self e rest)),
      ih (fun e' he' => h e' (List.mem_cons_of_mem e he'))]

/-- A fold of `markModelUnavailable` calls is one `map` that sets
`isAvailable := some false` on exactly the marked keys. -/
theorem foldl_mark_eq (ms : List String) (reg : List ModelEntry) :
    List.foldl markModelUnavailable reg ms =
      reg.map (fun e =>
        if ms.contains e.key then { e with isAvailable := some false } else e) := by
  induction ms generalizing reg with
  | nil =>
    simp only [List.foldl_nil, List.contains_nil, if_neg Bool.false_ne_true]
    exact (List.map_id reg).symm
  | cons k ks ih =>
    rw [List.foldl_cons, ih, markModelUnavailable, updateModelAvailability, List.map_map]
    refine List.map_congr_left (fun e _ => ?_)
    simp only [Function.comp_apply, List.contains_cons]
    by_cases hk : e.key = k <;> by_cases hks : ks.contains e.key <;>
      simp [hk, hks, beq_iff_eq]

/-- The mark-on-contained-key map step preserves the `key` field. -/
theorem marked_key_eq (ms : List String) (e : ModelEntry) :
    (if ms.contains e.key then { e with isAvailable := some false } else e).key = e.key := by
  by_cases hm : ms.contains e.key
  · rw [if_pos hm]
  · rw [if_neg hm]

/-- After folding marks over `reg`, a marked key that is present reads
`some false`. -/
theorem availabilityOf_foldl_mark (ms : List String) (reg : List ModelEntry)
    (k : String) (hk : ms.contains k)
    (hin : ∃ e ∈ reg, e.key = k) :
    availabilityOf (List.foldl markModelUnavailable reg ms) k = some false := by
  rw [foldl_mark_eq]
  unfold availabilityOf
  induction reg with
  | nil => obtain ⟨e, he, _⟩ := hin; exact absurd he (List.not_mem_nil e)
  | cons e rest ih =>
    by_cases hek : e.key = k
    · rw [List.map_cons, List.find?_cons_of_pos _ (by
        rw [decide_eq_true_iff, marked_key_eq, hek])]
      rw [if_pos (by rw [hek]; exact hk)]
      rfl
    · rw [List.map_cons, List.find?_cons_of_neg _ (by
        rw [decide_eq_true_iff, marked_key_eq]
        exact hek)]
      refine ih ?_
      obtain ⟨e', he', hk'⟩ := hin
      rcases List.mem_cons.1 he' with rfl | hrest
      · exact absurd hk' hek
      · exact ⟨e', hrest, hk'⟩

/-- `resetAllModelAvailability` undoes any sequence of marks on the initial
registry. -/
theorem resetAll_foldl_mark_init (ms : List String) :
    resetAllModelAvailability (List.foldl markModelUnavailable initRegistry ms) =
      initRegistry := by
  rw [foldl_mark_eq]
  unfold resetAllModelAvailability
  rw [List.map_map]
  have hstep : ∀ e : ModelEntry,
      ((fun e => { e with isAvailable := some true }) ∘
        (fun e => if ms.contains e.key then { e with isAvailable := some false } else e)) e =
      { e with isAvailable := some true } := by
    intro e
    by_cases hm : ms.contains e.key
    · simp only [Function.comp_apply, if_pos hm]
    · simp only [Function.comp_apply, if_neg hm]
  rw [List.map_congr_left (fun e _ => hstep e)]
  rfl

theorem mem_allPromptTypes (t : PromptType) : t ∈ allPromptTypes := by
  cases t <;> simp [allPromptTypes]

theorem rawScore_nonneg (p : Str) (t : PromptType) : 0 ≤ rawScore p t := by
  unfold rawScore calculateKeywordScore
  by_cases ht : t = .unknown
  · rw [if_pos ht]
  · rw [if_neg ht]
    by_cases hlen : (promptTypeKeywords t).length = 0
    · rw [if_pos hlen]
    · rw [if_neg hlen]
      refine le_min (by norm_num) ?_
      positivity

/-- The step function of `findBestMatch`. -/
def bestStep (p : Str) (bestMatch : PromptType × ℚ) (t : PromptType) : PromptType × ℚ :=
  if t = .unknown then bestMatch
  else if rawScore p t > bestMatch.2 then (t, rawScore p t) else bestMatch

theorem findBestMatch_eq_foldl (p : Str) :
    findBestMatch p = allPromptTypes.foldl (bestStep p) (.unknown, 0) := rfl

theorem bestStep_snd_le (p : Str) (acc : PromptType × ℚ) (t : PromptType) :
    acc.2 ≤ (bestStep p acc t).2 := by
  unfold bestStep
  by_cases ht : t = .unknown
  · rw [if_pos ht]
  · rw [if_neg ht]
    by_cases hgt : rawScore p t > acc.2
    · rw [if_pos hgt]; exact le_of_lt hgt
    · rw [if_neg hgt]

theorem foldl_bestStep_snd_le (p : Str) (ts : List PromptType) (acc : PromptType × ℚ) :
    acc.2 ≤ (ts.foldl (bestStep p) acc).2 := by
  induction ts generalizing acc with
  | nil => exact le_refl _
  | cons t ts ih =>
    rw [List.foldl_cons]
    exact le_trans (bestStep_snd_le p acc t) (ih (bestStep p acc t))

theorem foldl_bestStep_ge_mem (p : Str) (ts : List PromptType) (acc : PromptType × ℚ)
    (t : PromptType) (ht : t ∈ ts) (hu : t ≠ .unknown) :
    rawScore p t ≤ (ts.foldl (bestStep p) acc).2 := by
  induction ts generalizing acc with
  | nil => exact absurd ht (List.not_mem_nil t)
  | cons s ts ih =>
    rw [List.foldl_cons]
    rcases List.mem_cons.1 ht with rfl | hts
    · refine le_trans ?_ (foldl_bestStep_snd_le p ts (bestStep p acc t))
      unfold bestStep
      rw [if_neg hu]
      by_cases hgt : rawScore p t > acc.2
      · rw [if_pos hgt]
      · rw [if_neg hgt]; exact le_of_not_lt hgt
    · exact ih (bestStep p acc s) hts

theorem foldl_bestStep_cases (p : Str) (ts : List PromptType) (acc : PromptType × ℚ) :
    ts.foldl (bestStep p) acc = acc ∨
      ∃ t ∈ ts, t ≠ .unknown ∧ ts.foldl (bestStep p) acc = (t, rawScore p t) ∧
        acc.2 < rawScore p t := by
  induction ts generalizing acc with
  | nil => exact Or.inl rfl
  | cons s ts ih =>
    rw [List.foldl_cons]
    by_cases hs : s = .unknown
    · have hstep : bestStep p acc s = acc := by unfold bestStep; rw [if_pos hs]
      rw [hstep]
      rcases ih acc with h | ⟨t, ht, hu, heq, hlt⟩
      · exact Or.inl h
      · exact Or.inr ⟨t, List.mem_cons_of_mem s ht, hu, heq, hlt⟩
    · by_cases hgt : rawScore p s > acc.2
      · have hstep : bestStep p acc s = (s, rawScore p s) := by
          unfold bestStep; rw [if_neg hs, if_pos hgt]
        rw [hstep]
        rcases ih (s, rawScore p s) with h | ⟨t, ht, hu, heq, hlt⟩
        · exact Or.inr ⟨s, List.mem_cons_self s ts, hs, h, hgt⟩
        · exact Or.inr ⟨t, List.mem_cons_of_mem s ht, hu, heq, lt_trans hgt hlt⟩
      · have hstep : bestStep p acc s = acc := by
          unfold bestStep; rw [if_neg hs, if_neg hgt]
        rw [hstep]
        rcases ih acc with h | ⟨t, ht, hu, heq, hlt⟩
        · exact Or.inl h
        · exact Or.inr ⟨t, List.mem_cons_of_mem s ht, hu, heq, hlt⟩

/-- When some non-`UNKNOWN` raw score is non-zero, `findBestMatch` lands on a
non-`UNKNOWN` maximiser and reports its raw score. -/
theorem findBestMatch_spec_pos (p : Str)
    (h : ∃ t, t ≠ PromptType.unknown ∧ rawScore p t ≠ 0) :
    (findBestMatch p).1 ≠ PromptType.unknown ∧
      (findBestMatch p).2 = rawScore p (findBestMatch p).1 ∧
      ∀ t, t ≠ PromptType.unknown → rawScore p t ≤ (findBestMatch p).2 := by
  obtain ⟨t₀, hu₀, hr₀⟩ := h
  have hpos : 0 < rawScore p t₀ := lt_of_le_of_ne (rawScore_nonneg p t₀) (Ne.symm hr₀)
  have hge : rawScore p t₀ ≤ (findBestMatch p).2 := by
    rw [findBestMatch_eq_foldl]
    exact foldl_bestStep_ge_mem p allPromptTypes _ t₀ (mem_allPromptTypes t₀) hu₀
  have hbestpos : 0 < (findBestMatch p).2 := lt_of_lt_of_le hpos hge
  rcases foldl_bestStep_cases p allPromptTypes (PromptType.unknown, 0) with hacc | hex
  · rw [findBestMatch_eq_foldl] at hbestpos
    rw [hacc] at hbestpos
    exact absurd hbestpos (by norm_num)
  · obtain ⟨t, _, hu, heq, _⟩ := hex
    have hfb : findBestMatch p = (t, rawScore p t) := by rw [findBestMatch_eq_foldl, heq]
    refine ⟨by rw [hfb]; exact hu, by rw [hfb], fun s hs => ?_⟩
    rw [findBestMatch_eq_foldl]
    exact foldl_bestStep_ge_mem p allPromptTypes _ s (mem_allPromptTypes s) hs

/-- When every non-`UNKNOWN` raw score is zero, `findBestMatch` returns the
initial `(UNKNOWN, 0)`. -/
theorem findBestMatch_spec_zero (p : Str)
    (h : ∀ t, t ≠ PromptType.unknown → rawScore p t = 0) :
    findBestMatch p = (PromptType.unknown, 0) := by
  rcases foldl_bestStep_cases p allPromptTypes (PromptType.unknown, 0) with hacc | hex
  · rw [findBestMatch_eq_foldl, hacc]
  · obtain ⟨t, _, hu, _, hlt⟩ := hex
    rw [h t hu] at hlt
    exact absurd hlt (by norm_num)

/-- The head of a descending stable sort dominates every element of the
input list in the sort key. -/
theorem insertionSort_head_max {α : Type} (f : α → ℚ) (l : List α) (x : α)
    (hx : (l.insertionSort (fun a b => f b ≤ f a)).head? = some x) :
    ∀ y ∈ l, f y ≤ f x := by
  haveI : IsTotal α (fun a b => f b ≤ f a) := ⟨fun a b => le_total (f b) (f a)⟩
  haveI : IsTrans α (fun a b => f b ≤ f a) :=
    ⟨fun _ _ _ hab hbc => le_trans hbc hab⟩
  have hsorted := List.sorted_insertionSort (fun a b => f b ≤ f a) l
  intro y hy
  have hy' : y ∈ l.insertionSort (fun a b => f b ≤ f a) :=
    (List.mem_insertionSort _).2 hy
  match hsort : l.insertionSort (fun a b => f b ≤ f a) with
  | [] => rw [hsort] at hx; exact absurd hx (by simp)
  | z :: zs =>
    have hzx : z = x := by rw [hsort] at hx; simpa using hx
    rw [hsort] at hy' hsorted
    rcases List.mem_cons.1 hy' with rfl | hmem
    · rw [hzx]
    · rw [← hzx]
      exact List.rel_of_sorted_cons hsorted y hmem

/-- Unfolding `calculateCostSavings` when the head of the sorted candidate
list is known. -/
theorem calculateCostSavings_of_head (reg : List ModelEntry) (actualCost : ℚ)
    (pt : PromptType) (x : ModelConfig)
    (hx : ((costSavingsCandidates reg pt).insertionSort
        (fun a b => b.inputCostPer1kTokens ≤ a.inputCostPer1kTokens)).head?
      = some x) :
    calculateCostSavings reg actualCost pt
      = max 0 ((1000 / 1000 : ℚ) * x.inputCostPer1kTokens - actualCost) := by
  unfold calculateCostSavings
  dsimp only
  rw [hx]

/-! ## Claim theorems -/

/-- C6: the analytics log buffer never holds more than 1000 entries; an
append keeps insertion order, dropping only the oldest entries
(the result is the suffix of `logs ++ [e]` of length at most 1000); and
after 1001 logged requests the first logged entry is gone (the buffer is
exactly the input sequence minus its first element). -/
theorem c6_claim :
    (∀ (logs : List RequestLog) (e : RequestLog),
        (logRequest logs e).length ≤ maxLogs
        ∧ logRequest logs e = (logs ++ [e]).drop (logs.length + 1 - maxLogs))
    ∧ (∀ es : List RequestLog, es.foldl logRequest [] = es.drop (es.length - maxLogs))
    ∧ (∀ es : List RequestLog, es.length = maxLogs + 1 →
        es.foldl logRequest [] = es.drop 1) := by
  refine ⟨fun logs e => ⟨logRequest_length_le logs e, logRequest_eq_drop logs e⟩,
    foldl_logRequest_eq_drop, fun es hlen => ?_⟩
  rw [foldl_logRequest_eq_drop, hlen]
  norm_num

/-- C6 witness: 1001 concrete log entries; after feeding all of them the
buffer is the input minus its first entry. -/
theorem c6_witness :
    ((List.range (maxLogs + 1)).map witnessLog).length = maxLogs + 1
    ∧ ((List.range (maxLogs + 1)).map witnessLog).foldl logRequest []
      = ((List.range (maxLogs + 1)).map witnessLog).drop 1 :=
  ⟨by rw [List.length_map, List.length_range],
   c6_claim.2.2 _ (by rw [List.length_map, List.length_range])⟩

/-- C7: truncation behaves exactly as the specification words it — texts of
at most 3000 characters pass through unchanged; longer texts are cut after
position `cut = max(lastIndexOf('.', 3000), lastIndexOf('\n', 3000))` with
an appended ellipsis marker `"..."` iff `cut > 0.8 · 3000`, and are returned
unchanged otherwise. -/
theorem c7_claim : ∀ text : Str,
    truncateResponse text = truncateClaim text
    ∧ (text.length ≤ 3000 → truncateResponse text = (text, false))
    ∧ (text.length > 3000 →
        ((max (lastIndexOfLe text '.' 3000) (lastIndexOfLe text '\n' 3000) : ℚ)
            > 0.8 * 3000 →
          truncateResponse text =
            (text.take ((max (lastIndexOfLe text '.' 3000)
              (lastIndexOfLe text '\n' 3000)).toNat + 1) ++ "...".toList, true))
        ∧ (¬ ((max (lastIndexOfLe text '.' 3000) (lastIndexOfLe text '\n' 3000) : ℚ)
            > 0.8 * 3000) →
          truncateResponse text = (text, false))) := by
  intro text
  have heq := truncateResponse_eq_truncateClaim text
  refine ⟨heq, fun hle => ?_, fun hgt => ⟨fun hcut => ?_, fun hcut => ?_⟩⟩
  · rw [heq]; unfold truncateClaim; rw [if_pos hle]
  · rw [heq]; unfold truncateClaim
    rw [if_neg (by omega)]
    dsimp only
    rw [if_pos (by exact_mod_cast hcut)]
  · rw [heq]; unfold truncateClaim
    rw [if_neg (by omega)]
    dsimp only
    rw [if_neg (by exact_mod_cast hcut)]

theorem filter_range_eq_nil (p : ℕ → Bool) (n : ℕ) (h : ∀ i, i < n → p i = false) :
    (List.range n).filter p = [] := by
  rw [List.filter_eq_nil_iff]
  intro a ha
  rw [List.mem_range] at ha
  simp [h a ha]

theorem filter_range_eq_single (p : ℕ → Bool) (n k : ℕ) (hk : k < n)
    (h : ∀ i, i < n → (p i = true ↔ i = k)) :
    (List.range n).filter p = [k] := by
  induction n with
  | zero => omega
  | succ n ih =>
    rw [List.range_succ, List.filter_append]
    by_cases hkn : k = n
    · rw [filter_range_eq_nil p n (fun i hi => by
        cases hpi : p i with
        | false => rfl
        | true => exact absurd ((h i (by omega)).1 hpi) (by omega))]
      have hpn : p n = true := (h n (by omega)).2 hkn.symm
      simp [List.filter, hpn, hkn]
    · rw [ih (by omega) (fun i hi => h i (by omega))]
      have hpn : p n = false := by
        cases hpn : p n with
        | false => rfl
        | true => exact absurd ((h n (by omega)).1 hpn) (fun he => hkn he.symm)
      simp [List.filter, hpn]

theorem c7text_length : c7text.length = 3500 := by
  unfold c7text
  rw [List.length_append, List.length_append, List.length_replicate,
    List.length_replicate, List.length_singleton]

theorem c7text_lookup (i : ℕ) :
    c7text[i]? = if i < 2999 then some 'a'
      else if i = 2999 then some '.'
      else if i < 3500 then some 'b' else none := by
  unfold c7text
  rw [show (['.'] : Str) = List.replicate 1 '.' from rfl]
  rw [List.getElem?_append, List.getElem?_append]
  simp only [List.getElem?_replicate, List.length_append, List.length_replicate]
  split_ifs <;> first | rfl | omega

theorem lastIndexOfLe_eq (cs : Str) (c : Char) (fromIndex : ℕ) :
    lastIndexOfLe cs c fromIndex =
      match ((List.range (min (fromIndex + 1) cs.length)).filter
          (fun i => cs[i]? == some c)).getLast? with
      | some i => (i : Int)
      | none => -1 := rfl

theorem c7text_lastDot : lastIndexOfLe c7text '.' 3000 = 2999 := by
  rewrite [lastIndexOfLe_eq, c7text_length]
  rewrite [show min (3000 + 1) 3500 = 3001 by norm_num]
  rewrite [filter_range_eq_single _ 3001 2999 (by norm_num) (fun i hi => by
    rewrite [c7text_lookup i]
    by_cases h1 : i < 2999
    · rewrite [if_pos h1]
      simp only [Option.some.injEq, beq_iff_eq]
      constructor
      · intro hc; exact absurd hc (by decide)
      · omega
    · by_cases h2 : i = 2999
      · rewrite [if_neg h1, if_pos h2]
        simp [h2]
      · rewrite [if_neg h1, if_neg h2, if_pos (by omega)]
        simp only [Option.some.injEq, beq_iff_eq]
        constructor
        · intro hc; exact absurd hc (by decide)
        · omega)]
  rfl

theorem c7text_lastNewline : lastIndexOfLe c7text '\n' 3000 = -1 := by
  rewrite [lastIndexOfLe_eq, c7text_length]
  rewrite [show min (3000 + 1) 3500 = 3001 by norm_num]
  rewrite [filter_range_eq_nil _ 3001 (fun i hi => by
    rewrite [c7text_lookup i]
    by_cases h1 : i < 2999
    · rewrite [if_pos h1]; decide
    · by_cases h2 : i = 2999
      · rewrite [if_neg h1, if_pos h2]; decide
      · rewrite [if_neg h1, if_neg h2, if_pos (by omega)]; decide)]
  rfl

/-- C7 witness: a 3500-character text whose only sentence break sits at
index 2999 is cut there with the ellipsis marker appended; a short text
passes unchanged. -/
theorem c7_witness :
    truncateResponse ("hi".toList) = ("hi".toList, false)
    ∧ truncateResponse c7text = (c7text.take 3000 ++ "...".toList, true) := by
  constructor
  · exact (c7_claim "hi".toList).2.1 (by norm_num)
  · have h := ((c7_claim c7text).2.2 (by rw [c7text_length]; norm_num)).1 (by
      rewrite [c7text_lastDot, c7text_lastNewline]
      norm_num)
    rewrite [h, c7text_lastDot, c7text_lastNewline]
    norm_num
    rewrite [c7text_length]
    norm_num
    decide

/-- C8: the heuristic classifier returns a category of the closed
enumeration; its confidence is capped at 0.9; when every non-`UNKNOWN`
category has raw score 0 it returns `UNKNOWN` with confidence 0.1; otherwise
it returns a raw-score maximiser among the non-`UNKNOWN` categories with
confidence `min 0.9 (rawScore + 0.2·[gap > 0.3] + 0.1·[gap > 0.5])`, the gap
being the lead over the runner-up among the other non-`UNKNOWN`
categories. -/
theorem c8_claim : ∀ p : Str,
    (heuristicClassify p).promptType ∈ allPromptTypes
    ∧ (heuristicClassify p).confidence ≤ 0.9
    ∧ ((∀ t, t ≠ PromptType.unknown → rawScore p t = 0) →
        (heuristicClassify p).promptType = PromptType.unknown
        ∧ (heuristicClassify p).confidence = 0.1)
    ∧ ((∃ t, t ≠ PromptType.unknown ∧ rawScore p t ≠ 0) →
        (heuristicClassify p).promptType ≠ PromptType.unknown
        ∧ (∀ t, t ≠ PromptType.unknown →
            rawScore p t ≤ rawScore p (heuristicClassify p).promptType)
        ∧ (heuristicClassify p).confidence =
            min 0.9 (rawScore p (heuristicClassify p).promptType
              + (if rawScore p (heuristicClassify p).promptType
                    - maxOtherScore p (heuristicClassify p).promptType > 0.3
                  then 0.2 else 0)
              + (if rawScore p (heuristicClassify p).promptType
                    - maxOtherScore p (heuristicClassify p).promptType > 0.5
                  then 0.1 else 0))) := by
  intro p
  refine ⟨mem_allPromptTypes _, ?_, fun hz => ?_, fun hnz => ?_⟩
  · show heuristicConfidence p (findBestMatch p) ≤ 0.9
    unfold heuristicConfidence
    by_cases h0 : (findBestMatch p).2 = 0
    · rw [if_pos h0]; norm_num
    · rw [if_neg h0]
      exact min_le_left _ _
  · have hfb := findBestMatch_spec_zero p hz
    constructor
    · show (findBestMatch p).1 = PromptType.unknown
      rw [hfb]
    · show heuristicConfidence p (findBestMatch p) = 0.1
      unfold heuristicConfidence
      rw [if_pos (by rw [hfb])]
  · obtain ⟨hne, hfeq, hmax⟩ := findBestMatch_spec_pos p hnz
    have hpt : (heuristicClassify p).promptType = (findBestMatch p).1 := rfl
    have hconf : (heuristicClassify p).confidence =
        heuristicConfidence p (findBestMatch p) := rfl
    have hne0 : (findBestMatch p).2 ≠ 0 := by
      obtain ⟨t₀, hu₀, hr₀⟩ := hnz
      exact ne_of_gt (lt_of_lt_of_le
        (lt_of_le_of_ne (rawScore_nonneg p t₀) (Ne.symm hr₀)) (hmax t₀ hu₀))
    refine ⟨by rw [hpt]; exact hne, fun t ht => ?_, ?_⟩
    · rw [hpt, ← hfeq]; exact hmax t ht
    · rw [hconf, hpt, ← hfeq]
      unfold heuristicConfidence
      rw [if_neg hne0]
      dsimp only
      split_ifs <;> first | rfl | norm_num

/-- C8 witness: the prompt "write a function" scores `CODE` best (keywords
`write`, `function`); the prompt "qqq" matches nothing and lands on
`UNKNOWN` with confidence 0.1. -/
theorem c8_witness :
    ((heuristicClassify "write a function".toList).promptType = PromptType.code
      ∧ (heuristicClassify "write a function".toList).confidence ≤ 0.9)
    ∧ ((heuristicClassify "qqq".toList).promptType = PromptType.unknown
      ∧ (heuristicClassify "qqq".toList).confidence = 0.1) := by
  constructor
  · constructor
    · with_unfolding_all decide
    · exact (c8_claim "write a function".toList).2.1
  · exact (c8_claim "qqq".toList).2.2.1 (fun t ht => by
      cases t <;> first | exact absurd rfl ht | with_unfolding_all decide)

/-- C9: the hybrid classifier returns the heuristic result unchanged with
`finalMethod = "heuristic_only"` whenever the heuristic confidence is at
least 0.7; on model-classifier failure it degrades to the heuristic category
with confidence `max 0.1 (heuristic · 0.5)` and
`finalMethod = "heuristic_fallback"`; when both run and agree it returns the
shared category with the larger of the two confidences; when they disagree
it adopts the model result iff `modelConfidence − heuristicConfidence > 0`
and the heuristic result otherwise — the `> 0.2` threshold changes only the
reasoning text, never the outcome. -/
theorem c9_claim : ∀ (p : Str) (mo : Except String ModelResult),
    ((heuristicClassify p).confidence ≥ 0.7 →
      hybridClassify p mo =
        ⟨(heuristicClassify p).promptType, (heuristicClassify p).confidence,
          "heuristic", "heuristic_only"⟩)
    ∧ ((heuristicClassify p).confidence < 0.7 → ∀ e, mo = .error e →
      hybridClassify p mo =
        ⟨(heuristicClassify p).promptType,
          max 0.1 ((heuristicClassify p).confidence * 0.5),
          "heuristic", "heuristic_fallback"⟩)
    ∧ ((heuristicClassify p).confidence < 0.7 → ∀ m, mo = .ok m →
      m.promptType = (heuristicClassify p).promptType →
      (hybridClassify p mo).promptType = (heuristicClassify p).promptType
      ∧ (hybridClassify p mo).confidence =
          max (heuristicClassify p).confidence m.confidence)
    ∧ ((heuristicClassify p).confidence < 0.7 → ∀ m, mo = .ok m →
      m.promptType ≠ (heuristicClassify p).promptType →
      ((m.confidence - (heuristicClassify p).confidence > 0 →
        hybridClassify p mo = ⟨m.promptType, m.confidence, "model", "model"⟩)
      ∧ (¬ (m.confidence - (heuristicClassify p).confidence > 0) →
        hybridClassify p mo =
          ⟨(heuristicClassify p).promptType, (heuristicClassify p).confidence,
            "heuristic", "heuristic"⟩))) := by
  intro p mo
  refine ⟨fun hge => ?_, fun hlt e hmo => ?_, fun hlt m hmo hagree => ?_,
    fun hlt m hmo hdis => ⟨fun hgt => ?_, fun hngt => ?_⟩⟩
  · unfold hybridClassify
    rw [if_pos hge]
  · unfold hybridClassify
    rw [if_neg (not_le.2 hlt), hmo]
  · unfold hybridClassify
    rw [if_neg (not_le.2 hlt), hmo]
    unfold combineResults
    dsimp only
    rw [if_pos hagree.symm]
    exact ⟨rfl, rfl⟩
  · unfold hybridClassify
    rw [if_neg (not_le.2 hlt), hmo]
    unfold combineResults
    dsimp only
    rw [if_neg (fun hx => hdis hx.symm)]
    by_cases h02 : m.confidence - (heuristicClassify p).confidence > 0.2
    · rw [if_pos h02]
    · rw [if_neg h02, if_pos hgt]
  · unfold hybridClassify
    rw [if_neg (not_le.2 hlt), hmo]
    unfold combineResults
    dsimp only
    rw [if_neg (fun hx => hdis hx.symm)]
    rw [if_neg (fun h02 => hngt (by linarith)), if_neg hngt]

/-- C9 witness: the low-confidence prompt "qqq" (heuristic `UNKNOWN`, 0.1)
combined with a disagreeing, more confident model verdict `CODE`/0.6 adopts
the model verdict; with a failing model classifier it degrades to
`UNKNOWN` at confidence `max 0.1 (0.1 · 0.5) = 0.1` as `heuristic_fallback`. -/
theorem c9_witness :
    hybridClassify "qqq".toList (.ok ⟨PromptType.code, 0.6⟩)
      = ⟨PromptType.code, 0.6, "model", "model"⟩
    ∧ hybridClassify "qqq".toList (.error "ClassifierError")
      = ⟨PromptType.unknown, max 0.1 ((heuristicClassify "qqq".toList).confidence * 0.5),
          "heuristic", "heuristic_fallback"⟩ := by
  have hconf : (heuristicClassify "qqq".toList).confidence = 0.1 := by
    with_unfolding_all decide
  have hpt : (heuristicClassify "qqq".toList).promptType = PromptType.unknown := by
    with_unfolding_all decide
  constructor
  · have h := ((c9_claim "qqq".toList (.ok ⟨PromptType.code, 0.6⟩)).2.2.2
      (by rw [hconf]; norm_num) ⟨PromptType.code, 0.6⟩ rfl
      (by rw [hpt]; decide)).1 (by rw [hconf]; norm_num)
    exact h
  · have h := (c9_claim "qqq".toList (.error "ClassifierError")).2.1
      (by rw [hconf]; norm_num) "ClassifierError" rfl
    rw [h, hpt]

set_option maxRecDepth 2000 in
/-- C10: on the program's model registry, `calculateCostSavings` equals
`max 0 (maxCost − actualCost)` where `maxCost` is the `priceInputPerMillion`
of the model with the highest input price among registry models whose
quality-prior table contains the category, interpreted per 1000 tokens of
notional work (i.e. divided by 1000, the price of 1000 input tokens).
The code builds its candidate list by re-resolving each row's wire-level
`modelName` through the registry-key lookup `getModelByName` and dropping
unresolved rows, which excludes `gpt-oss-20b` (key ≠ wire name); that model
is the free one, so the maximum — `claude-3-7-sonnet-20250219` at $3.0 per
million for every category — and hence the claimed equation are unaffected. -/
theorem c10_claim : ∀ (actualCost : ℚ) (pt : PromptType),
    ∃ mx ∈ initRegistry, pt ∈ (computeDerivedProperties mx).capabilities
      ∧ (∀ m' ∈ initRegistry, pt ∈ (computeDerivedProperties m').capabilities →
          m'.priceInputPerMillion ≤ mx.priceInputPerMillion)
      ∧ calculateCostSavings initRegistry actualCost pt
          = max 0 (mx.priceInputPerMillion / 1000 - actualCost) := by
  intro actualCost pt
  refine ⟨claudeEntry, by unfold initRegistry; exact List.mem_cons_self _ _,
    ?_, ?_, ?_⟩
  · cases pt <;> with_unfolding_all decide
  · intro m' hm' hcap'
    unfold initRegistry at hm'
    rcases List.mem_cons.1 hm' with rfl | hm'
    · with_unfolding_all decide
    rcases List.mem_cons.1 hm' with rfl | hm'
    · with_unfolding_all decide
    rcases List.mem_cons.1 hm' with rfl | hm'
    · with_unfolding_all decide
    rcases List.mem_cons.1 hm' with rfl | hm'
    · with_unfolding_all decide
    rcases List.mem_cons.1 hm' with rfl | hm'
    · with_unfolding_all decide
    exact absurd hm' (List.not_mem_nil _)
  · rw [calculateCostSavings_of_head initRegistry actualCost pt
      (computeDerivedProperties claudeEntry) (by cases pt <;> with_unfolding_all rfl)]
    have hx : (computeDerivedProperties claudeEntry).inputCostPer1kTokens
        = claudeEntry.priceInputPerMillion / 1000 := rfl
    have h11 : (1000 / 1000 : ℚ) = 1 := by norm_num
    rw [hx, h11, one_mul]

set_option maxRecDepth 2000 in
/-- C10 witness: on the pristine registry and the CODE category the claim
instantiates with `claude-3-7-sonnet-20250219` ($3.0 per million input
tokens) as the most expensive capable model, and the concrete savings
against an actual cost of $0.001 are `0.003 − 0.001 = 0.002`. -/
theorem c10_witness :
    calculateCostSavings initRegistry 0.001 PromptType.code = 0.002
    ∧ ∃ mx ∈ initRegistry, PromptType.code ∈ (computeDerivedProperties mx).capabilities
      ∧ (∀ m' ∈ initRegistry,
          PromptType.code ∈ (computeDerivedProperties m').capabilities →
          m'.priceInputPerMillion ≤ mx.priceInputPerMillion)
      ∧ calculateCostSavings initRegistry 0.001 PromptType.code
          = max 0 (mx.priceInputPerMillion / 1000 - 0.001) := by
  constructor
  · with_unfolding_all decide
  · exact c10_claim 0.001 PromptType.code

/-- Every successful routing decision records the engine's weight table at
the request's preset. -/
theorem routeRequest_priorityWeights {ops : ScoreMath} {reg : List ModelEntry}
    {req : RoutingRequest} {d : RoutingDecision}
    (h : routeRequest ops reg req = .ok d) :
    d.priorityWeights = PRIORITY_WEIGHTS req.priorityPreset := by
  unfold routeRequest at h
  split at h
  · exact absurd h (by simp)
  next pt hpt =>
    dsimp only at h
    split at h
    · exact absurd h (by simp)
    · split at h
      · exact absurd h (by simp)
      · cases h; rfl

/-- C1 counterexample: under preset COST the decision records the weight
triple (0.20, 0.70, 0.10), not the specification's (0.30, 0.50, 0.20); the
engine's table also differs from the spec's table (mirrored by the unused
`DEFAULT_PRIORITY_WEIGHTS`) on QUALITY and LATENCY. -/
theorem c1_counterexample :
    routeRequest zeroMath initRegistry reqCostHi = .ok decCostHi
    ∧ decCostHi.priorityWeights = ⟨0.20, 0.70, 0.10⟩
    ∧ decCostHi.priorityWeights ≠ ⟨0.30, 0.50, 0.20⟩
    ∧ PRIORITY_WEIGHTS PriorityPreset.quality ≠ DEFAULT_PRIORITY_WEIGHTS PriorityPreset.quality
    ∧ PRIORITY_WEIGHTS PriorityPreset.cost ≠ DEFAULT_PRIORITY_WEIGHTS PriorityPreset.cost
    ∧ PRIORITY_WEIGHTS PriorityPreset.latency ≠ DEFAULT_PRIORITY_WEIGHTS PriorityPreset.latency := by
  refine ⟨by with_unfolding_all rfl, by with_unfolding_all rfl, ?_, ?_, ?_, ?_⟩
  all_goals intro h
  all_goals exact absurd (congrArg Weights.quality h) (by with_unfolding_all decide)

/-- C1 (amended): the priorityWeights recorded in every routing decision are
the engine's `PRIORITY_WEIGHTS` table — BALANCED (0.45, 0.30, 0.25),
QUALITY (0.70, 0.20, 0.10), COST (0.20, 0.70, 0.10),
LATENCY (0.20, 0.10, 0.70); BALANCED alone matches the specification. -/
theorem c1_claim :
    (∀ (ops : ScoreMath) (reg : List ModelEntry) (req : RoutingRequest)
        (d : RoutingDecision), routeRequest ops reg req = .ok d →
      d.priorityWeights = PRIORITY_WEIGHTS req.priorityPreset)
    ∧ PRIORITY_WEIGHTS PriorityPreset.balanced = ⟨0.45, 0.30, 0.25⟩
    ∧ PRIORITY_WEIGHTS PriorityPreset.quality = ⟨0.70, 0.20, 0.10⟩
    ∧ PRIORITY_WEIGHTS PriorityPreset.cost = ⟨0.20, 0.70, 0.10⟩
    ∧ PRIORITY_WEIGHTS PriorityPreset.latency = ⟨0.20, 0.10, 0.70⟩ :=
  ⟨fun _ _ _ _ h => routeRequest_priorityWeights h, rfl, rfl, rfl, rfl⟩

/-- C1 witness: a concrete COST-preset decision carrying the engine's COST
triple. -/
theorem c1_witness :
    routeRequest zeroMath initRegistry reqCostHi = .ok decCostHi
    ∧ decCostHi.priorityWeights = PRIORITY_WEIGHTS PriorityPreset.cost :=
  ⟨by with_unfolding_all rfl,
   c1_claim.1 zeroMath initRegistry reqCostHi decCostHi (by with_unfolding_all rfl)⟩

/-- In the pristine registry, distinct keys carry distinct provider model
names. -/
theorem initRegistry_names_inj :
    ∀ e₁ ∈ initRegistry, ∀ e₂ ∈ initRegistry,
      e₁.modelName = e₂.modelName → e₁.key = e₂.key := by
  intro e₁ h₁ e₂ h₂
  unfold initRegistry at h₁ h₂
  rcases List.mem_cons.1 h₁ with rfl | h₁ <;>
    [skip; rcases List.mem_cons.1 h₁ with rfl | h₁] <;>
    [skip; skip; rcases List.mem_cons.1 h₁ with rfl | h₁] <;>
    [skip; skip; skip; rcases List.mem_cons.1 h₁ with rfl | h₁] <;>
    [skip; skip; skip; skip; rcases List.mem_cons.1 h₁ with rfl | h₁] <;>
    [skip; skip; skip; skip; skip; exact absurd h₁ (List.not_mem_nil _)] <;>
  (rcases List.mem_cons.1 h₂ with rfl | h₂ <;>
    [skip; rcases List.mem_cons.1 h₂ with rfl | h₂] <;>
    [skip; skip; rcases List.mem_cons.1 h₂ with rfl | h₂] <;>
    [skip; skip; skip; rcases List.mem_cons.1 h₂ with rfl | h₂] <;>
    [skip; skip; skip; skip; rcases List.mem_cons.1 h₂ with rfl | h₂] <;>
    [skip; skip; skip; skip; skip; exact absurd h₂ (List.not_mem_nil _)]) <;>
  (intro hname) <;> first | rfl | (exact absurd hname (by with_unfolding_all decide))

/-- Marks preserve every field except `isAvailable`. -/
theorem foldl_mark_fields (ms : List String) (reg : List ModelEntry) :
    ∀ e' ∈ List.foldl markModelUnavailable reg ms,
      ∃ e ∈ reg, e'.key = e.key ∧ e'.modelName = e.modelName
        ∧ (e'.isAvailable.getD true = true → ms.contains e.key = false) := by
  intro e' he'
  rw [foldl_mark_eq] at he'
  obtain ⟨e, he, hee⟩ := List.mem_map.1 he'
  refine ⟨e, he, ?_, ?_, ?_⟩
  · rw [← hee, marked_key_eq]
  · rw [← hee]
    by_cases hm : ms.contains e.key
    · rw [if_pos hm]
    · rw [if_neg hm]
  · intro hav
    by_cases hm : ms.contains e.key
    · rw [if_pos hm] at hee
      rw [← hee] at hav
      exact absurd hav (by simp)
    · simpa using hm

/-- C2: after `markModelUnavailable(k)` (possibly among further marks, the
only availability mutations the service ever performs) the registry reads
`some false` for `k` and no routing decision selects `k`'s model;
`resetAllModelAvailability` restores the pristine all-available registry,
and with it selection eligibility. -/
theorem c2_claim :
    (∀ (ops : ScoreMath) (req : RoutingRequest) (d : RoutingDecision)
        (k : String) (ms : List String) (e : ModelEntry),
      ms.contains k = true → e ∈ initRegistry → e.key = k →
      availabilityOf (List.foldl markModelUnavailable initRegistry ms) k = some false
      ∧ (routeRequest ops (List.foldl markModelUnavailable initRegistry ms) req = .ok d →
          d.selectedModel ≠ e.modelName))
    ∧ (∀ ms : List String,
        resetAllModelAvailability (List.foldl markModelUnavailable initRegistry ms)
          = initRegistry) := by
  refine ⟨fun ops req d k ms e hk he hek => ⟨?_, fun hok => ?_⟩, resetAll_foldl_mark_init⟩
  · exact availabilityOf_foldl_mark ms initRegistry k hk ⟨e, he, hek⟩
  · obtain ⟨e', he', hav', hsel⟩ := routeRequest_ok_selected hok
    obtain ⟨e₀, he₀, hkey, hname, hnotms⟩ := foldl_mark_fields ms initRegistry e' he'
    intro hcontra
    have hname₀ : e₀.modelName = e.modelName := by rw [← hname, ← hcontra, hsel]
    have hkey₀ : e₀.key = e.key := initRegistry_names_inj e₀ he₀ e he hname₀
    have : ms.contains e₀.key = false := hnotms hav'
    rw [hkey₀, hek] at this
    rw [hk] at this
    exact absurd this (by decide)

/-- C2 witness: marking `gpt-5` flips its flag to `some false`; the next
COST-preset decision selects `gpt-4o-mini`, not `gpt-5`; reset restores the
pristine registry. -/
theorem c2_witness :
    availabilityOf (List.foldl markModelUnavailable initRegistry ["gpt-5"]) "gpt-5" = some false
    ∧ decNoGpt5.selectedModel ≠ gpt5Entry.modelName
    ∧ decNoGpt5.selectedModel = "gpt-4o-mini"
    ∧ resetAllModelAvailability (List.foldl markModelUnavailable initRegistry ["gpt-5"])
        = initRegistry := by
  have h := c2_claim.1 zeroMath reqCostHi decNoGpt5 "gpt-5" ["gpt-5"] gpt5Entry
    (by with_unfolding_all decide)
    (by unfold initRegistry; exact List.mem_cons_of_mem _ (List.mem_cons_self _ _))
    rfl
  exact ⟨h.1, h.2 (by with_unfolding_all rfl), by with_unfolding_all rfl,
    c2_claim.2 ["gpt-5"]⟩

/-- C3: when the selected backend invocation fails, `routePrompt` marks the
selected model unavailable in the registry, invokes the static fallback
`gpt-4o-mini` exactly once with temperature 0.7, timeout 30000 ms and the
category-specific `maxTokens`; a successful fallback reply is returned with
the assumed cost 0.00015; if the fallback also fails, the raised error
carries the original failure's message. -/
theorem c3_claim : ∀ (ops : ScoreMath) (cfgTimeout : ℚ) (cr : ClassifyOutcome)
    (backend : Backend) (elapsed : ℚ) (st : RouterState) (prompt : Str)
    (preset : PriorityPreset) (uid sid : Option String) (d : RoutingDecision)
    (e₁ : String),
    routeRequest ops st.registry ⟨prompt, some cr.promptType, preset⟩ = .ok d →
    backend d.selectedModel ⟨getMaxOutputTokens cr.promptType,
      getTemperatureForPromptType cr.promptType, cfgTimeout⟩ = .error e₁ →
    (routePrompt ops cfgTimeout (.ok cr) backend elapsed st prompt preset uid sid).2.1.registry
        = markModelUnavailable st.registry d.selectedModel
    ∧ (routePrompt ops cfgTimeout (.ok cr) backend elapsed st prompt preset uid sid).2.2
        = [(d.selectedModel, ⟨getMaxOutputTokens cr.promptType,
              getTemperatureForPromptType cr.promptType, cfgTimeout⟩),
           ("gpt-4o-mini", ⟨getMaxOutputTokens cr.promptType, 0.7, 30000⟩)]
    ∧ (∀ content, backend "gpt-4o-mini" ⟨getMaxOutputTokens cr.promptType, 0.7, 30000⟩
          = .ok content →
        ∃ r, (routePrompt ops cfgTimeout (.ok cr) backend elapsed st prompt preset uid sid).1
            = .ok r
          ∧ r.actualCost = 0.00015 ∧ r.modelUsed = "gpt-4o-mini (fallback)")
    ∧ (∀ e₂, backend "gpt-4o-mini" ⟨getMaxOutputTokens cr.promptType, 0.7, 30000⟩
          = .error e₂ →
        (routePrompt ops cfgTimeout (.ok cr) backend elapsed st prompt preset uid sid).1
          = .error ("Routing failed: "
              ++ (if e₁ = "" then "Unknown routing error" else e₁))) := by
  intro ops cfgTimeout cr backend elapsed st prompt preset uid sid d e₁ hroute hbackend
  unfold routePrompt
  dsimp only
  rw [hroute]
  dsimp only
  rw [hbackend]
  unfold handleRoutingError
  dsimp only
  cases hfb : backend "gpt-4o-mini" ⟨getMaxOutputTokens cr.promptType, 0.7, 30000⟩ with
  | ok content =>
    exact ⟨rfl, rfl, fun c hc => ⟨_, rfl, rfl, rfl⟩, fun e₂ he₂ => absurd he₂ (by simp)⟩
  | error err =>
    exact ⟨rfl, rfl, fun c hc => absurd hc (by simp), fun e₂ he₂ => rfl⟩

/-- C3 witness: with every backend failing, the concrete run marks the
selected model, makes exactly one fallback call with the literal options,
and raises the original message. -/
theorem c3_witness :
    (routePrompt zeroMath 30000 (.ok classifySumm) failAllBackend 0
        ⟨initRegistry, []⟩ "hi".toList .cost none none).2.2
      = [("openai/gpt-oss-20b:fireworks-ai",
            ⟨getMaxOutputTokens PromptType.summarize,
              getTemperatureForPromptType PromptType.summarize, 30000⟩),
         ("gpt-4o-mini", ⟨getMaxOutputTokens PromptType.summarize, 0.7, 30000⟩)]
    ∧ (routePrompt zeroMath 30000 (.ok classifySumm) failAllBackend 0
        ⟨initRegistry, []⟩ "hi".toList .cost none none).1
      = .error "Routing failed: primary down"
    ∧ (routePrompt zeroMath 30000 (.ok classifySumm) failAllBackend 0
        ⟨initRegistry, []⟩ "hi".toList .cost none none).2.1.registry
      = markModelUnavailable initRegistry "openai/gpt-oss-20b:fireworks-ai" := by
  have h := c3_claim zeroMath 30000 classifySumm failAllBackend 0
    ⟨initRegistry, []⟩ "hi".toList .cost none none decCostHi "primary down"
    (by with_unfolding_all rfl) (by with_unfolding_all rfl)
  have hsel : decCostHi.selectedModel = "openai/gpt-oss-20b:fireworks-ai" := by
    with_unfolding_all rfl
  refine ⟨?_, ?_, ?_⟩
  · rw [h.2.1, hsel]
    with_unfolding_all rfl
  · have := h.2.2.2 "primary down" (by with_unfolding_all rfl)
    rw [this]
    with_unfolding_all rfl
  · rw [h.1, hsel]

/-- C4: `updateModelAvailability` with a non-key name leaves the registry
unchanged; concretely, the router marks failures with the decision's
wire-level model name, and for `gpt-oss-20b` that name
(`openai/gpt-oss-20b:fireworks-ai`) is not a registry key — so a backend
failure of that model leaves its flag `some true` and a subsequent
identical COST-preset decision still selects it. -/
theorem c4_claim :
    (∀ (reg : List ModelEntry) (name : String) (b : Bool),
        (∀ e ∈ reg, e.key ≠ name) → updateModelAvailability reg name b = reg)
    ∧ markModelUnavailable initRegistry "openai/gpt-oss-20b:fireworks-ai" = initRegistry
    ∧ availabilityOf initRegistry "gpt-oss-20b" = some true
    ∧ (routePrompt zeroMath 30000 (.ok classifySumm) ossFailBackend 0
        ⟨initRegistry, []⟩ "hi".toList .cost none none).2.1.registry = initRegistry
    ∧ (routeRequest zeroMath initRegistry reqCostHi).toOption.map
        (fun d => d.selectedModel) = some "openai/gpt-oss-20b:fireworks-ai" := by
  refine ⟨updateModelAvailability_frame, ?_, ?_, ?_, ?_⟩
  · with_unfolding_all rfl
  · with_unfolding_all rfl
  · with_unfolding_all rfl
  · with_unfolding_all rfl

/-- C4 witness: a name absent from the key set leaves the registry
untouched. -/
theorem c4_witness :
    updateModelAvailability initRegistry "openai/gpt-oss-20b:fireworks-ai" false
      = initRegistry :=
  c4_claim.1 initRegistry "openai/gpt-oss-20b:fireworks-ai" false
    (by with_unfolding_all decide)

/-- C5 counterexample: a run in which both the selected backend and the
static fallback fail leaves the analytics log buffer unchanged (empty) while
reporting the final failure — the final-failure outcome is not appended. -/
theorem c5_counterexample :
    (routePrompt zeroMath 30000 (.ok classifySumm) failAllBackend 0
        ⟨initRegistry, []⟩ "hi".toList .cost none none).2.1.requestLogs = []
    ∧ (routePrompt zeroMath 30000 (.ok classifySumm) failAllBackend 0
        ⟨initRegistry, []⟩ "hi".toList .cost none none).1
      = .error "Routing failed: primary down" := by
  constructor
  · with_unfolding_all rfl
  · with_unfolding_all rfl

/-- C5 (amended): normal successes and fallback successes are appended to
the analytics log buffer (one entry each, through `logRequest`); a final
failure in which both the selected model and the static fallback failed is
not appended — `routePrompt` raises without logging. -/
theorem c5_claim : ∀ (ops : ScoreMath) (cfgTimeout : ℚ) (cr : ClassifyOutcome)
    (backend : Backend) (elapsed : ℚ) (reg : List ModelEntry)
    (logs : List RequestLog) (prompt : Str) (preset : PriorityPreset)
    (uid sid : Option String),
    (∀ d content, routeRequest ops reg ⟨prompt, some cr.promptType, preset⟩ = .ok d →
      backend d.selectedModel ⟨getMaxOutputTokens cr.promptType,
        getTemperatureForPromptType cr.promptType, cfgTimeout⟩ = .ok content →
      (routePrompt ops cfgTimeout (.ok cr) backend elapsed ⟨reg, logs⟩ prompt preset
          uid sid).2.1.requestLogs
        = logRequest logs
          { prompt := prompt, promptType := cr.promptType,
            selectedModel := d.selectedModel, provider := d.provider,
            costUsd := calculateActualCost reg d.selectedModel prompt.length content.length,
            latencyMs := elapsed, qualityScore := some d.confidence,
            classificationMethod := cr.method,
            classificationConfidence := cr.confidence, priorityPreset := preset,
            userId := uid, sessionId := sid, error := none })
    ∧ (∀ d e₁ content, routeRequest ops reg ⟨prompt, some cr.promptType, preset⟩ = .ok d →
        backend d.selectedModel ⟨getMaxOutputTokens cr.promptType,
          getTemperatureForPromptType cr.promptType, cfgTimeout⟩ = .error e₁ →
        backend "gpt-4o-mini" ⟨getMaxOutputTokens cr.promptType, 0.7, 30000⟩ = .ok content →
        (routePrompt ops cfgTimeout (.ok cr) backend elapsed ⟨reg, logs⟩ prompt preset
            uid sid).2.1.requestLogs
          = logRequest logs
            { prompt := prompt, promptType := cr.promptType,
              selectedModel := "gpt-4o-mini", provider := .openai,
              costUsd := 0.00015, latencyMs := elapsed, qualityScore := some 0.5,
              classificationMethod := "fallback",
              classificationConfidence := jsOrQ cr.confidence 0.5,
              priorityPreset := preset, userId := uid, sessionId := sid,
              error := some e₁ })
    ∧ (∀ d e₁ e₂, routeRequest ops reg ⟨prompt, some cr.promptType, preset⟩ = .ok d →
        backend d.selectedModel ⟨getMaxOutputTokens cr.promptType,
          getTemperatureForPromptType cr.promptType, cfgTimeout⟩ = .error e₁ →
        backend "gpt-4o-mini" ⟨getMaxOutputTokens cr.promptType, 0.7, 30000⟩ = .error e₂ →
        (routePrompt ops cfgTimeout (.ok cr) backend elapsed ⟨reg, logs⟩ prompt preset
            uid sid).2.1.requestLogs = logs) := by
  intro ops cfgTimeout cr backend elapsed reg logs prompt preset uid sid
  refine ⟨fun d content hroute hok => ?_, fun d e₁ content hroute herr hfb => ?_,
    fun d e₁ e₂ hroute herr hfb => ?_⟩
  · unfold routePrompt
    dsimp only
    rw [hroute]
    dsimp only
    rw [hok]
  · unfold routePrompt
    dsimp only
    rw [hroute]
    dsimp only
    rw [herr]
    unfold handleRoutingError
    dsimp only
    rw [hfb]
  · unfold routePrompt
    dsimp only
    rw [hroute]
    dsimp only
    rw [herr]
    unfold handleRoutingError
    dsimp only
    rw [hfb]

/-- C5 witness: with the selected backend failing and the fallback
answering, exactly the fallback entry is appended to the (empty) buffer. -/
theorem c5_witness :
    (routePrompt zeroMath 30000 (.ok classifySumm) fbOnlyBackend 0
        ⟨initRegistry, []⟩ "hi".toList .cost none none).2.1.requestLogs
      = logRequest []
        { prompt := "hi".toList, promptType := classifySumm.promptType,
          selectedModel := "gpt-4o-mini", provider := .openai,
          costUsd := 0.00015, latencyMs := 0, qualityScore := some 0.5,
          classificationMethod := "fallback",
          classificationConfidence := jsOrQ classifySumm.confidence 0.5,
          priorityPreset := .cost, userId := none, sessionId := none,
          error := some "primary down" } :=
  (c5_claim zeroMath 30000 classifySumm fbOnlyBackend 0 initRegistry []
      "hi".toList .cost none none).2.1 decCostHi "primary down" "All good.".toList
    (by with_unfolding_all rfl) (by with_unfolding_all rfl) (by with_unfolding_all rfl)

end LlmRouter
